import Mathlib

/-!
Shallow embedding of the agent run event-stream client of
`src/frontend_web/src/hooks/use-ag-ui-chat.ts` (the `useAgUiChat` hook),
together with the custom progress-event vocabulary of
`src/frontend_web/src/types/events.ts`.

JavaScript records (`Record<string, T>`) are embedded as association lists
in insertion order, matching the enumeration order of string-keyed object
properties; `undefined` lookups are `Option.none`.  React `useState` cells
are fields of an explicit state record, and each subscriber callback of
`agent.subscribe` becomes a function from state to state (side effects such
as handler invocation, unsubscription and the external refetch are collected
in an explicit effect list).
-/

namespace AgUiChat

/-- One step of a progress track.  Modelled from the spec: the file
`src/frontend_web/src/types/progress.ts` (the `ProgressStep` /
`ProgressState` types referenced by `types/events.ts` and the hook) is not
under `src/`; the spec gives a step as `{label, done: bool, error?: string}`
with `done` initially absent (falsy) and `error` initially absent. -/
structure ProgressStep where
  label : String
  done : Bool := false
  error : Option String := none
deriving DecidableEq, Repr

/-- `ProgressState = Record<string, ProgressStep[]>`, as an association list
in insertion order. -/
abbrev ProgressState := List (String × List ProgressStep)

/-- Tool call arguments (`Record<string, any>`), opaquely embedded. -/
abbrev ToolCallArgs := List (String × String)

/-- The opaque agent state snapshot (`Record<any, any>`), opaquely embedded. -/
abbrev Snapshot := List (String × String)

/-- `ToolStatus` from `src/frontend_web/src/types/tools.ts` (EXECUTING / COMPLETE). -/
inductive ToolStatus where
  | executing
  | complete
deriving DecidableEq, Repr

/-- The message union rendered by the chat (`MessageResponse`), restricted to
the fields the hook actually produces: user text messages
(`createTextMessageFromUserInput`), streamed assistant text messages,
system error messages (built inline in `onRunErrorEvent`), tool invocation
messages and custom widget messages. -/
inductive MessageResponse where
  | userText (id text threadId : String)
  | assistantText (id text : String)
  | errorMsg (id threadId errText : String)
  | toolInvocation (id toolName : String) (args : Option ToolCallArgs) (status : ToolStatus)
  | widget (toolName : String) (args : ToolCallArgs) (threadId : String)
deriving DecidableEq, Repr

/-- `ToolSerialized` from `src/frontend_web/src/types/tools.ts`:
`{name, description, parameters, enabled?}`.  The parameter schema is opaque. -/
structure ToolSerialized where
  name : String
  description : String
  parameters : String
  enabled : Option Bool := none
deriving DecidableEq, Repr

/-- Presence of the runtime closures of a tool handler binding
(`Pick<Tool, 'handler' | 'render' | 'renderAndWait'>` stored in
`toolHandlersRef`); only their truthiness is observable in the hook. -/
structure ToolHandlerBinding where
  hasHandler : Bool := false
  hasRender : Bool := false
  hasRenderAndWait : Bool := false
deriving DecidableEq, Repr

/-- Property read `m[k]` on a string-keyed JS record: first entry with the
key, `none` for `undefined`. -/
def recordLookup (m : List (String × α)) (k : String) : Option α :=
  match m with
  | [] => none
  | kv :: rest => if kv.1 = k then some kv.2 else recordLookup rest k

/-- The `k in m` test on a string-keyed JS record. -/
def recordHasKey (m : List (String × α)) (k : String) : Bool :=
  match m with
  | [] => false
  | kv :: rest => kv.1 = k || recordHasKey rest k

/-- Property write `{...m, [k]: v}` on a string-keyed JS record: an existing
key keeps its position and is overwritten, a new key is appended. -/
def recordSet (m : List (String × α)) (k : String) (v : α) : List (String × α) :=
  if recordHasKey m k then m.map (fun kv => if kv.1 = k then (k, v) else kv)
  else m ++ [(k, v)]

/-- The custom events recognized by `onCustomEvent`
(`src/frontend_web/src/types/events.ts`): `progress-start{id, steps}`,
`progress-done{id, step}`, `progress-error{id, step, message}`; any other
custom event name falls through every guard. -/
inductive CustomEv where
  | progressStart (id : String) (steps : List ProgressStep)
  | progressDone (id : String) (step : Nat)
  | progressError (id : String) (step : Nat) (message : String)
  | other (name : String)
deriving DecidableEq, Repr

/-- Whether a custom event is a `progress-done` or `progress-error` step update. -/
def CustomEv.isStepUpdate : CustomEv → Bool
  | .progressDone _ _ => true
  | .progressError _ _ _ => true
  | _ => false

/-- The `onCustomEvent` subscriber callback (use-ag-ui-chat.ts lines
167-188), acting on the `progress` state cell.  The `progress-done` and
`progress-error` branches evaluate `state[event.value.id].map(...)`; when
the track id is absent this reads `.map` of `undefined` and throws a
`TypeError`, embedded as `Except.error`. -/
def onCustomEvent (e : CustomEv) (progress : ProgressState) : Except String ProgressState :=
  match e with
  | .progressStart id steps => .ok (recordSet progress id steps)
  | .progressDone id step =>
      match recordLookup progress id with
      | none => .error "TypeError: cannot read map of undefined"
      | some steps =>
          .ok (recordSet progress id
            (steps.mapIdx (fun i s => if step = i then { s with done := true } else s)))
  | .progressError id step message =>
      match recordLookup progress id with
      | none => .error "TypeError: cannot read map of undefined"
      | some steps =>
          .ok (recordSet progress id
            (steps.mapIdx (fun i s => if step = i then { s with error := some message } else s)))
  | .other _ => .ok progress

/-- Modelled from the spec: `createTextMessageFromUserInput` lives in
`src/frontend_web/src/lib/mappers.ts`, which is not under `src/`.  Per spec
4.4, `sendMessage` constructs a UserMessage from the input text for the
given thread (ids are generated client-side). -/
def createTextMessageFromUserInput (text chatId freshId : String) : MessageResponse :=
  .userText freshId text chatId

/-- Modelled from the spec: `createTextMessageFromAgUiEvent` lives in
`src/frontend_web/src/lib/mappers.ts`, which is not under `src/`.  Per spec
4.3, message-start allocates an assistant message with an empty text
buffer, and message-content sets its text to the transport's cumulative
buffer (the one-argument call site passes no buffer). -/
def createTextMessageFromAgUiEvent (msgId : String) (textMessageBuffer : String := "") :
    MessageResponse :=
  .assistantText msgId textMessageBuffer

/-- Modelled from the spec: `createToolMessageFromAgUiEvent` lives in
`src/frontend_web/src/lib/mappers.ts`, which is not under `src/`.  Per spec
4.3, it yields a finalized ToolInvocation content part with status
`complete` and the raw arguments. -/
def createToolMessageFromAgUiEvent (msgId toolCallName : String)
    (toolCallArgs : Option ToolCallArgs) : MessageResponse :=
  .toolInvocation msgId toolCallName toolCallArgs .complete

/-- Modelled from the spec: `createCustomMessageWidget` lives in
`src/frontend_web/src/lib/mappers.ts`, which is not under `src/`.  Per spec
4.3, it yields a finalized custom-widget message tagged with the tool name
and arguments for the given thread. -/
def createCustomMessageWidget (toolCallArgs : ToolCallArgs) (toolCallName threadId : String) :
    MessageResponse :=
  .widget toolCallName toolCallArgs threadId

/-- The Live State cells of `useAgUiChat` (use-ag-ui-chat.ts lines 38-46):
`state` (agent state snapshot), `messages` (finalized), `message`
(in-progress), `progress` and `runningAgent`. -/
structure HookState where
  state : Snapshot := []
  messages : List MessageResponse := []
  message : Option MessageResponse := none
  progress : ProgressState := []
  runningAgent : Bool := false
deriving DecidableEq, Repr

/-- `onTextMessageStartEvent` (line 101): the in-progress slot is set from
the start event (no buffer argument). -/
def onTextMessageStartEvent (msgId : String) (s : HookState) : HookState :=
  { s with message := some (createTextMessageFromAgUiEvent msgId) }

/-- `onTextMessageContentEvent` (lines 104-112): the in-progress slot is
rebuilt from the transport's cumulative `textMessageBuffer`. -/
def onTextMessageContentEvent (msgId textMessageBuffer : String) (s : HookState) : HookState :=
  { s with message := some (createTextMessageFromAgUiEvent msgId textMessageBuffer) }

/-- `onTextMessageEndEvent` (lines 113-120): the in-progress message
(`messageRef.current!`) is appended to the finalized list, the slot is
cleared and `runningAgent` is set false.  Within a start/end pair the slot
is non-empty; a bare message-end, which in the source would push `null`, is
embedded as appending nothing. -/
def onTextMessageEndEvent (s : HookState) : HookState :=
  { s with
    messages := s.messages ++ s.message.toList
    message := none
    runningAgent := false }

/-- Truthiness of `toolHandlersRef.current[name]?.handler`. -/
def handlerBound (handlers : List (String × ToolHandlerBinding)) (name : String) : Bool :=
  ((recordLookup handlers name).map (·.hasHandler)).getD false

/-- Truthiness of `toolHandlersRef.current[name]?.render`. -/
def renderBound (handlers : List (String × ToolHandlerBinding)) (name : String) : Bool :=
  ((recordLookup handlers name).map (·.hasRender)).getD false

/-- Observable side effects of the subscriber callbacks. -/
inductive Effect where
  | invokeHandler (toolCallName : String) (toolCallArgs : ToolCallArgs)
  | unsubscribe
  | refetchChats
deriving DecidableEq, Repr

/-- `onToolCallEndEvent` (lines 124-155): if the descriptor is registered
in `tools`, a `handler` is bound and arguments are present, the handler is
invoked and a tool message is appended; else if the descriptor is
registered, a `render` is bound and arguments are present, a custom widget
message is appended; otherwise the generic tool message is appended. -/
def onToolCallEndEvent (tools : List (String × ToolSerialized))
    (handlers : List (String × ToolHandlerBinding)) (chatId msgId toolCallName : String)
    (toolCallArgs : Option ToolCallArgs) (s : HookState) : HookState × List Effect :=
  if (recordLookup tools toolCallName).isSome && handlerBound handlers toolCallName
      && toolCallArgs.isSome then
    ({ s with
       messages := s.messages ++ [createToolMessageFromAgUiEvent msgId toolCallName toolCallArgs] },
     [.invokeHandler toolCallName (toolCallArgs.getD [])])
  else if (recordLookup tools toolCallName).isSome && renderBound handlers toolCallName
      && toolCallArgs.isSome then
    ({ s with
       messages := s.messages ++ [createCustomMessageWidget (toolCallArgs.getD []) toolCallName chatId] },
     [])
  else
    ({ s with
       messages := s.messages ++ [createToolMessageFromAgUiEvent msgId toolCallName toolCallArgs] },
     [])

/-- `onStateSnapshotEvent` (lines 156-158): the snapshot is replaced wholesale. -/
def onStateSnapshotEvent (snap : Snapshot) (s : HookState) : HookState :=
  { s with state := snap }

/-- `onRunErrorEvent` (lines 189-205): an `AbortError` raw event is
swallowed; any other error sets `runningAgent` false and appends a system
error message carrying the error text. -/
def onRunErrorEvent (rawEventName : Option String) (message freshId chatId : String)
    (s : HookState) : HookState :=
  if rawEventName = some "AbortError" then s
  else
    { s with
      runningAgent := false
      messages := s.messages ++ [.errorMsg freshId chatId message] }

/-- `registerOrUpdateTool` (lines 230-235): JS-record upsert of the descriptor. -/
def registerOrUpdateTool (id : String) (tool : ToolSerialized)
    (tools : List (String × ToolSerialized)) : List (String × ToolSerialized) :=
  recordSet tools id tool

/-- The tool list passed to `agent.runAgent` (lines 210-212):
`Object.values(tools).filter(tool => tool.enabled !== false)`. -/
def listEnabledTools (tools : List (String × ToolSerialized)) : List ToolSerialized :=
  (tools.map (·.2)).filter (fun t => t.enabled != some false)

/-- The state of one `useAgUiChat` instance beyond the Live State cells:
the tool registry, the handler bindings, the stored unsubscribe handle
(`unsubscribeRef`, as the handle of the currently subscribed run session),
a counter for allocating fresh run-session handles, a counter for fresh
client-side ids, and the active chat id. -/
structure FacadeState where
  hook : HookState := {}
  tools : List (String × ToolSerialized) := []
  toolHandlers : List (String × ToolHandlerBinding) := []
  activeHandle : Option Nat := none
  nextHandle : Nat := 0
  uuidSeq : Nat := 0
  chatId : String := "main"
deriving DecidableEq, Repr

/-- `onRunFinishedEvent` (lines 162-166): `unsubscribe()` is called, the
stored handle is cleared and `refetchChats()` is triggered; no Live State
cell is written. -/
def onRunFinishedEvent (f : FacadeState) : FacadeState × List Effect :=
  ({ f with activeHandle := none }, [.unsubscribe, .refetchChats])

/-- The event vocabulary delivered to the subscriber of one run session. -/
inductive AgEvent where
  | textStart (msgId : String)
  | textContent (msgId textMessageBuffer : String)
  | textEnd
  | toolCallStart (toolCallName : String)
  | toolCallEnd (msgId toolCallName : String) (toolCallArgs : Option ToolCallArgs)
  | stateSnapshot (snap : Snapshot)
  | custom (e : CustomEv)
  | runFinished
  | runError (rawEventName : Option String) (message : String)
deriving DecidableEq, Repr

/-- Dispatch of one delivered event to the subscriber callbacks registered
in `sendMessage` (lines 100-206).  `toolCallStart` is logged only.  A
custom progress event whose track id is absent throws inside the
`setProgress` updater; the exception aborts the update, so the Live State
is embedded as unchanged. -/
def applySubscriberEvent (f : FacadeState) (e : AgEvent) : FacadeState :=
  match e with
  | .textStart msgId => { f with hook := onTextMessageStartEvent msgId f.hook }
  | .textContent msgId buf => { f with hook := onTextMessageContentEvent msgId buf f.hook }
  | .textEnd => { f with hook := onTextMessageEndEvent f.hook }
  | .toolCallStart _ => f
  | .toolCallEnd msgId name args =>
      { f with hook := (onToolCallEndEvent f.tools f.toolHandlers f.chatId msgId name args f.hook).1 }
  | .stateSnapshot snap => { f with hook := onStateSnapshotEvent snap f.hook }
  | .custom ce =>
      match onCustomEvent ce f.hook.progress with
      | .ok p => { f with hook := { f.hook with progress := p } }
      | .error _ => f
  | .runFinished => (onRunFinishedEvent f).1
  | .runError raw msg =>
      { f with
        hook := onRunErrorEvent raw msg (toString f.uuidSeq) f.chatId f.hook
        uuidSeq := f.uuidSeq + 1 }

/-- Modelled from the spec: the event dispatch of the run session lives in
the external `@ag-ui/client` (`agent.subscribe` / `AbortController`), not
under `src/`.  Per spec 4.2, after `cancel` "no further `onEvent` calls are
delivered for that handle", and per spec 4.3 events for a handle that is no
longer the active handle are discarded unconditionally; delivery therefore
invokes the subscriber callbacks only when the event's handle is the
currently subscribed handle. -/
def deliver (f : FacadeState) (h : Nat) (e : AgEvent) : FacadeState :=
  if f.activeHandle = some h then applySubscriberEvent f e else f

/-- Delivery of a trace of (handle, event) pairs in receipt order. -/
def deliverAll (f : FacadeState) (trace : List (Nat × AgEvent)) : FacadeState :=
  trace.foldl (fun s p => deliver s p.1 p.2) f

/-- The synchronous part of `sendMessage` (lines 93-99, 100, 208): append
the optimistic user message, set `runningAgent`, subscribe a fresh run
session and store its unsubscribe handle.  Returns the new handle. -/
def sendMessageStart (text : String) (f : FacadeState) : FacadeState × Nat :=
  ({ f with
     hook := { f.hook with
       messages := f.hook.messages ++ [createTextMessageFromUserInput text f.chatId (toString f.uuidSeq)]
       runningAgent := true }
     uuidSeq := f.uuidSeq + 1
     activeHandle := some f.nextHandle
     nextHandle := f.nextHandle + 1 }, f.nextHandle)

/-- The chat-switch effect (lines 80-91): the cleanup of the `[chatId]`
effect calls `unsubscribeRef.current()` and aborts the agent, and the
effect body resets `messages`, `message`, `progress` and `runningAgent`.
The `state` cell is not written by this effect. -/
def switchChat (newId : String) (f : FacadeState) : FacadeState :=
  { f with
    chatId := newId
    activeHandle := none
    hook := { f.hook with
      messages := []
      message := none
      progress := []
      runningAgent := false } }

/-- `combinedMessages` (lines 217-228): the rendered view.  The seed
(`initialMessages`) is included exactly when the history fetch is not
loading and `history?.length` is falsy (history absent or empty) — the
`initialMessages` operand of the `&&` chain is an array and always truthy;
then `history` (when present), the live finalized `messages` and the
in-progress `message` (when present) are appended. -/
def combinedMessages (isLoadingHistory : Bool) (history : Option (List MessageResponse))
    (initialMessages messages : List MessageResponse) (message : Option MessageResponse) :
    List MessageResponse :=
  let seed := if !isLoadingHistory && (history.getD []).isEmpty then initialMessages else []
  let withHistory := seed ++ history.getD []
  let withLive := withHistory ++ messages
  match message with
  | some m => withLive ++ [m]
  | none => withLive

/-- Cumulative `textMessageBuffer` values the transport attaches to a
sequence of content deltas, starting from buffer contents `acc`.  Modelled
from the spec: the buffering primitive lives in the external
`@ag-ui/client`; per spec 4.3/8 (P2) the cumulative buffer delivered with
each content delta is the concatenation of the deltas received so far. -/
def cumulativeBuffers (acc : String) : List String → List String
  | [] => []
  | d :: ds => (acc ++ d) :: cumulativeBuffers (acc ++ d) ds

/-- One full streamed assistant turn: a message-start, one content event
per delta carrying the transport's cumulative buffer, and a message-end. -/
def runTextMessageRound (msgId : String) (deltas : List String) (s : HookState) : HookState :=
  onTextMessageEndEvent
    ((cumulativeBuffers "" deltas).foldl (fun st b => onTextMessageContentEvent msgId b st)
      (onTextMessageStartEvent msgId s))

/-! ## Sample states used by concrete witnesses and counterexamples -/

/-- A populated Live State: non-empty snapshot, one finalized message, an
in-progress message, one progress track and a running flag. -/
def sampleHook : HookState :=
  { state := [("k", "v")]
    messages := [.userText "u1" "hi" "t1"]
    message := some (.assistantText "a1" "he")
    progress := [("p1", [{ label := "A", done := true }])]
    runningAgent := true }

/-- A facade mid-run on chat `t1` with `sampleHook` as its Live State. -/
def sampleFacade : FacadeState :=
  { hook := sampleHook
    activeHandle := some 0
    nextHandle := 1
    uuidSeq := 5
    chatId := "t1" }

/-! ## Claims -/

/-- C2: a `progress-done` (or `progress-error`) event whose step index is
out of range for an existing track is a no-op on the progress mapping, but
an event whose track id is absent from the mapping is not a silent no-op:
the source evaluates `state[event.value.id].map(...)` with
`state[event.value.id]` undefined and throws a `TypeError`. -/
theorem progressEvent_missing_track_throws :
    onCustomEvent (CustomEv.progressDone "p1" 0) []
        = Except.error "TypeError: cannot read map of undefined"
      ∧ onCustomEvent (CustomEv.progressError "p1" 0 "boom") []
        = Except.error "TypeError: cannot read map of undefined"
      ∧ onCustomEvent (CustomEv.progressDone "p1" 5) [("p1", [{ label := "A" }])]
        = Except.ok [("p1", [{ label := "A" }])] := by
  refine ⟨rfl, rfl, rfl⟩

/-- C3 counterexample: switching from `t1` to `t2` leaves the agent state
snapshot of `t1` in place — the claim that the entire Live State, state
snapshot included, is reset fails at this input. -/
theorem switchChat_keeps_snapshot :
    (switchChat "t2" sampleFacade).hook.state = [("k", "v")]
      ∧ ([("k", "v")] : Snapshot) ≠ [] := by
  exact ⟨rfl, by decide⟩

/-- C3 amended: on a chat switch the session is torn down and
`finalizedMessages`, `inProgressMessage`, `progress` and `isRunning` are
reset, but the state snapshot is carried over unchanged into the new
chat. -/
theorem switchChat_resets_live_state_except_snapshot (newId : String) (f : FacadeState) :
    (switchChat newId f).hook.messages = []
      ∧ (switchChat newId f).hook.message = none
      ∧ (switchChat newId f).hook.progress = []
      ∧ (switchChat newId f).hook.runningAgent = false
      ∧ (switchChat newId f).activeHandle = none
      ∧ (switchChat newId f).hook.state = f.hook.state := by
  exact ⟨rfl, rfl, rfl, rfl, rfl, rfl⟩

/-- C6: a run-error whose raw event is a local `AbortError` changes nothing;
any other run-error appends exactly one error message carrying the error
text and clears `isRunning`. -/
theorem runError_cancellation_swallowed (rawEventName : Option String)
    (message freshId chatId : String) (s : HookState) :
    (rawEventName = some "AbortError" →
        onRunErrorEvent rawEventName message freshId chatId s = s)
      ∧ (rawEventName ≠ some "AbortError" →
          (onRunErrorEvent rawEventName message freshId chatId s).messages
              = s.messages ++ [MessageResponse.errorMsg freshId chatId message]
            ∧ (onRunErrorEvent rawEventName message freshId chatId s).runningAgent = false) := by
  constructor
  · intro h
    simp [onRunErrorEvent, h]
  · intro h
    simp [onRunErrorEvent, h]

/-- C6 witness: the theorem evaluated on an `AbortError` and on a plain
error against the sample Live State. -/
theorem runError_cancellation_swallowed_witness :
    onRunErrorEvent (some "AbortError") "boom" "id9" "t1" sampleHook = sampleHook
      ∧ (onRunErrorEvent none "boom" "id9" "t1" sampleHook).messages
          = sampleHook.messages ++ [MessageResponse.errorMsg "id9" "t1" "boom"] :=
  ⟨(runError_cancellation_swallowed (some "AbortError") "boom" "id9" "t1" sampleHook).1 rfl,
   ((runError_cancellation_swallowed none "boom" "id9" "t1" sampleHook).2 (by decide)).1⟩

/-- C7 counterexample: a run-finished event on a running facade leaves
`isRunning` true — the claim that run-finished sets `isRunning` to false
fails at this input (lines 162-166 never write `runningAgent`). -/
theorem runFinished_keeps_running_flag :
    sampleFacade.hook.runningAgent = true
      ∧ (onRunFinishedEvent sampleFacade).1.hook.runningAgent = true :=
  ⟨rfl, rfl⟩

/-- C7 amended: run-finished releases the subscription (the stored handle
is cleared and the unsubscribe effect is emitted) and triggers the external
history-list refresh, but leaves the whole Live State — `isRunning`
included — unchanged. -/
theorem runFinished_unsubscribes_and_refetches (f : FacadeState) :
    (onRunFinishedEvent f).1.activeHandle = none
      ∧ (onRunFinishedEvent f).2 = [Effect.unsubscribe, Effect.refetchChats]
      ∧ (onRunFinishedEvent f).1.hook = f.hook :=
  ⟨rfl, rfl, rfl⟩

/-! ## Record lemmas -/

/-- The step stored at `(id, i)` of a progress mapping. -/
def stepAt (p : ProgressState) (id : String) (i : Nat) : Option ProgressStep :=
  (recordLookup p id).bind (fun steps => steps[i]?)

theorem recordLookup_map_replace (t : List (String × α)) (k k2 : String) (v : α)
    (hne : k2 ≠ k) :
    recordLookup (t.map (fun kv => if kv.1 = k then (k, v) else kv)) k2
      = recordLookup t k2 := by
  have hk2 : k ≠ k2 := Ne.symm hne
  induction t with
  | nil => rfl
  | cons a t ih =>
    by_cases ha : a.1 = k
    · simp [recordLookup, ha, hk2, ih]
    · by_cases ha2 : a.1 = k2 <;> simp [recordLookup, ha, ha2, hne, ih]

theorem recordSet_cons_of_ne (a : String × α) (t : List (String × α)) (k : String) (v : α)
    (ha : a.1 ≠ k) :
    recordSet (a :: t) k v = a :: recordSet t k v := by
  by_cases ht : recordHasKey t k <;> simp [recordSet, recordHasKey, ha, ht]

theorem recordLookup_recordSet_self (m : List (String × α)) (k : String) (v : α) :
    recordLookup (recordSet m k v) k = some v := by
  induction m with
  | nil => simp [recordSet, recordHasKey, recordLookup]
  | cons a t ih =>
    by_cases ha : a.1 = k
    · simp [recordSet, recordHasKey, recordLookup, ha]
    · rw [recordSet_cons_of_ne a t k v ha]
      simp [recordLookup, ha, ih]

theorem recordLookup_recordSet_other (m : List (String × α)) (k k2 : String) (v : α)
    (hne : k2 ≠ k) :
    recordLookup (recordSet m k v) k2 = recordLookup m k2 := by
  have hk2 : k ≠ k2 := Ne.symm hne
  induction m with
  | nil => simp [recordSet, recordHasKey, recordLookup, hk2]
  | cons a t ih =>
    by_cases ha : a.1 = k
    · have hak2 : a.1 ≠ k2 := by rw [ha]; exact hk2
      simp [recordSet, recordHasKey, recordLookup, ha, hk2, hak2,
        recordLookup_map_replace t k k2 v hne]
    · rw [recordSet_cons_of_ne a t k v ha]
      by_cases ha2 : a.1 = k2 <;> simp [recordLookup, ha2, ih]

theorem getElem?_mapIdx (l : List α) (f : ℕ → α → β) (i : ℕ) :
    (l.mapIdx f)[i]? = l[i]?.map (f i) := by
  simp [List.mapIdx_eq_enum_map, List.getElem?_map, List.getElem?_enum, Function.uncurry]
  cases l[i]? <;> rfl

/-- C4 counterexample: a step already marked done is changed by a later
`progress-error` for the same id and ends up carrying both terminal
markings, so neither the no-further-change claim nor mutual exclusivity
holds at this input. -/
theorem progressDone_then_error_changes_step :
    onCustomEvent (CustomEv.progressDone "p1" 0) [("p1", [{ label := "A" }])]
        = Except.ok [("p1", [{ label := "A", done := true }])]
      ∧ onCustomEvent (CustomEv.progressError "p1" 0 "boom")
            [("p1", [{ label := "A", done := true }])]
        = Except.ok [("p1", [{ label := "A", done := true, error := some "boom" }])]
      ∧ ({ label := "A", done := true, error := some "boom" } : ProgressStep)
          ≠ { label := "A", done := true }
      ∧ ({ label := "A", done := true, error := some "boom" } : ProgressStep).done = true
      ∧ ({ label := "A", done := true, error := some "boom" } : ProgressStep).error ≠ none := by
  exact ⟨rfl, rfl, by decide, rfl, by decide⟩

/-- C4 amended: under `progress-done` and `progress-error` events the
markings are monotone — a step's `done` flag is never cleared and a set
`error` is never removed — but they are not mutually exclusive terminal
states: a done step may later also gain an error marking and vice versa,
and a `progress-start` for the same id replaces the whole track. -/
theorem progressStep_markings_monotone (p p' : ProgressState) (e : CustomEv) (id : String)
    (i : Nat) (st st' : ProgressStep)
    (he : e.isStepUpdate = true)
    (hok : onCustomEvent e p = Except.ok p')
    (hst : stepAt p id i = some st)
    (hst' : stepAt p' id i = some st') :
    (st.done = true → st'.done = true) ∧ (st.error ≠ none → st'.error ≠ none) := by
  cases e with
  | progressStart eid steps => simp [CustomEv.isStepUpdate] at he
  | other n => simp [CustomEv.isStepUpdate] at he
  | progressDone eid step =>
      cases hrl : recordLookup p eid with
      | none => simp [onCustomEvent, hrl] at hok
      | some steps =>
          simp only [onCustomEvent, hrl, Except.ok.injEq] at hok
          subst hok
          by_cases hid : id = eid
          · subst hid
            unfold stepAt at hst hst'
            rw [hrl] at hst
            rw [recordLookup_recordSet_self] at hst'
            replace hst : steps[i]? = some st := hst
            replace hst' :
                (steps.mapIdx (fun j s => if step = j then { s with done := true } else s))[i]?
                  = some st' := hst'
            rw [getElem?_mapIdx, hst] at hst'
            replace hst' : (if step = i then { st with done := true } else st) = st' :=
              Option.some.inj hst'
            by_cases hsi : step = i
            · rw [if_pos hsi] at hst'
              subst hst'
              exact ⟨fun _ => rfl, fun h => h⟩
            · rw [if_neg hsi] at hst'
              subst hst'
              exact ⟨fun h => h, fun h => h⟩
          · unfold stepAt at hst hst'
            rw [recordLookup_recordSet_other p eid id _ (hid)] at hst'
            rw [hst] at hst'
            simp only [Option.some.injEq] at hst'
            subst hst'
            exact ⟨fun h => h, fun h => h⟩
  | progressError eid step msg =>
      cases hrl : recordLookup p eid with
      | none => simp [onCustomEvent, hrl] at hok
      | some steps =>
          simp only [onCustomEvent, hrl, Except.ok.injEq] at hok
          subst hok
          by_cases hid : id = eid
          · subst hid
            unfold stepAt at hst hst'
            rw [hrl] at hst
            rw [recordLookup_recordSet_self] at hst'
            replace hst : steps[i]? = some st := hst
            replace hst' :
                (steps.mapIdx (fun j s => if step = j then { s with error := some msg } else s))[i]?
                  = some st' := hst'
            rw [getElem?_mapIdx, hst] at hst'
            replace hst' : (if step = i then { st with error := some msg } else st) = st' :=
              Option.some.inj hst'
            by_cases hsi : step = i
            · rw [if_pos hsi] at hst'
              subst hst'
              exact ⟨fun h => h, fun _ => by simp⟩
            · rw [if_neg hsi] at hst'
              subst hst'
              exact ⟨fun h => h, fun h => h⟩
          · unfold stepAt at hst hst'
            rw [recordLookup_recordSet_other p eid id _ (hid)] at hst'
            rw [hst] at hst'
            simp only [Option.some.injEq] at hst'
            subst hst'
            exact ⟨fun h => h, fun h => h⟩

/-- C4 amended witness: the monotonicity theorem applied to a concrete
`progress-error` on a track whose step 0 is already done. -/
theorem progressStep_markings_monotone_witness :
    (({ label := "A", done := true } : ProgressStep).done = true →
        ({ label := "A", done := true, error := some "boom" } : ProgressStep).done = true)
      ∧ (({ label := "A", done := true } : ProgressStep).error ≠ none →
        ({ label := "A", done := true, error := some "boom" } : ProgressStep).error ≠ none) :=
  progressStep_markings_monotone [("p1", [{ label := "A", done := true }])]
    [("p1", [{ label := "A", done := true, error := some "boom" }])]
    (CustomEv.progressError "p1" 0 "boom") "p1" 0
    { label := "A", done := true } { label := "A", done := true, error := some "boom" }
    rfl rfl rfl rfl

theorem join_cons (d : String) (ds : List String) :
    String.join (d :: ds) = d ++ String.join ds := by
  apply String.ext
  simp [String.join_eq]

theorem foldContent_cumulative (msgId : String) (ds : List String) (acc : String) (s : HookState)
    (h : s.message = some (MessageResponse.assistantText msgId acc)) :
    (cumulativeBuffers acc ds).foldl (fun st b => onTextMessageContentEvent msgId b st) s
      = { s with message := some (.assistantText msgId (acc ++ String.join ds)) } := by
  induction ds generalizing acc s with
  | nil =>
    have hj : acc ++ String.join [] = acc := by simp [String.join]
    rw [cumulativeBuffers, List.foldl_nil, hj]
    cases s
    simp_all
  | cons d t ih =>
    rw [cumulativeBuffers, List.foldl_cons]
    rw [ih (acc ++ d) (onTextMessageContentEvent msgId (acc ++ d) s) rfl]
    rw [join_cons, ← String.append_assoc]
    rfl

/-- C5: a message-start, any ordered sequence of content deltas (each
delivered with the transport's cumulative buffer) and the following
message-end append exactly one finalized message at the tail of the
finalized sequence, its text is the concatenation of the deltas (the
transport's latest cumulative buffer), and the in-progress slot is cleared
afterwards. -/
theorem streamed_turn_appends_one_message (s : HookState) (msgId : String)
    (deltas : List String) :
    (runTextMessageRound msgId deltas s).messages
        = s.messages ++ [MessageResponse.assistantText msgId (String.join deltas)]
      ∧ (runTextMessageRound msgId deltas s).message = none := by
  unfold runTextMessageRound
  rw [foldContent_cumulative msgId deltas "" (onTextMessageStartEvent msgId s) rfl]
  have hs : ("" : String) ++ String.join deltas = String.join deltas := by simp
  rw [hs]
  exact ⟨rfl, rfl⟩

/-- A seed (initial) message used as a first-run placeholder. -/
def seedSample : MessageResponse := .assistantText "seed1" "welcome"

/-- A live finalized message produced by a run. -/
def liveSample : MessageResponse := .assistantText "a2" "live"

/-- C8 counterexample: with empty (loaded) history but a non-empty live
finalized sequence, the seed message is still included in the view, so the
claim that seed messages are dropped once the live state becomes non-empty
fails at this input. -/
theorem combinedMessages_seed_despite_live :
    combinedMessages false (some []) [seedSample] [liveSample] none = [seedSample, liveSample]
      ∧ ([liveSample] : List MessageResponse) ≠ [] := by
  exact ⟨rfl, by decide⟩

/-- C8 amended: the view is exactly `[seed if applicable] + history +
finalizedMessages + [inProgressMessage if present]`, where the seed
messages are applicable exactly when the history fetch is not loading and
history is absent or empty — irrespective of the live state. -/
theorem combinedMessages_concat (l : Bool) (h : Option (List MessageResponse))
    (ini ms : List MessageResponse) (m : Option MessageResponse) :
    combinedMessages l h ini ms m
      = (if l = false ∧ (h.getD []).length = 0 then ini else [])
          ++ h.getD [] ++ ms ++ m.toList := by
  cases m <;> cases l <;> cases hh : h.getD [] <;>
    simp [combinedMessages, hh, List.append_assoc]

/-- The keys of a JS record embedding, in enumeration order. -/
def keysOf (m : List (String × α)) : List String := m.map Prod.fst

/-- How many entries of the record carry the key `k`. -/
def keyCount (m : List (String × α)) (k : String) : Nat := (keysOf m).count k

theorem recordHasKey_iff_mem (m : List (String × α)) (k : String) :
    recordHasKey m k = true ↔ k ∈ keysOf m := by
  induction m with
  | nil => simp [recordHasKey, keysOf]
  | cons a t ih =>
    simp only [recordHasKey, Bool.or_eq_true, decide_eq_true_eq, ih]
    show a.1 = k ∨ k ∈ keysOf t ↔ k ∈ a.1 :: keysOf t
    rw [List.mem_cons]
    exact or_congr eq_comm Iff.rfl

theorem keysOf_map_replace (m : List (String × α)) (k : String) (v : α) :
    keysOf (m.map (fun kv => if kv.1 = k then (k, v) else kv)) = keysOf m := by
  induction m with
  | nil => rfl
  | cons a t ih =>
    by_cases ha : a.1 = k <;> simp [keysOf, ha] <;> simpa [keysOf] using ih

theorem keysOf_recordSet (m : List (String × α)) (k : String) (v : α) :
    keysOf (recordSet m k v)
      = if recordHasKey m k then keysOf m else keysOf m ++ [k] := by
  unfold recordSet
  by_cases h : recordHasKey m k
  · rw [if_pos h, if_pos h]
    exact keysOf_map_replace m k v
  · rw [if_neg h, if_neg h]
    simp [keysOf]

theorem listEnabledTools_all_enabled (tools : List (String × ToolSerialized)) :
    ∀ t ∈ listEnabledTools tools, t.enabled ≠ some false := by
  intro t ht
  have := (List.mem_filter.mp ht).2
  simpa using this

/-- C9: registering a tool under an already-registered name is an
idempotent upsert — after two registrations of the same name (on a registry
with unique keys, as JS objects have) exactly one descriptor, the latest,
is stored under that name — and the enabled list sent to the agent at run
start only contains descriptors whose `enabled` is not `false`. -/
theorem registerOrUpdateTool_idempotent_upsert (tools : List (String × ToolSerialized))
    (id : String) (d1 d2 : ToolSerialized) (hnd : (keysOf tools).Nodup) :
    keyCount (registerOrUpdateTool id d2 (registerOrUpdateTool id d1 tools)) id = 1
      ∧ recordLookup (registerOrUpdateTool id d2 (registerOrUpdateTool id d1 tools)) id
          = some d2
      ∧ ∀ t ∈ listEnabledTools (registerOrUpdateTool id d2 (registerOrUpdateTool id d1 tools)),
          t.enabled ≠ some false := by
  refine ⟨?_, recordLookup_recordSet_self _ id d2, listEnabledTools_all_enabled _⟩
  unfold registerOrUpdateTool
  have h1 : recordHasKey (recordSet tools id d1) id = true := by
    rw [recordHasKey_iff_mem, keysOf_recordSet]
    by_cases h : recordHasKey tools id
    · rw [if_pos h]
      exact (recordHasKey_iff_mem tools id).mp h
    · rw [if_neg h]
      simp
  unfold keyCount
  rw [keysOf_recordSet _ id d2, if_pos h1, keysOf_recordSet _ id d1]
  by_cases h : recordHasKey tools id
  · rw [if_pos h]
    exact List.count_eq_one_of_mem hnd ((recordHasKey_iff_mem tools id).mp h)
  · rw [if_neg h]
    have hnm : id ∉ keysOf tools := fun hm => h ((recordHasKey_iff_mem tools id).mpr hm)
    simp [List.count_append, List.count_eq_zero_of_not_mem hnm]

/-- A first sample descriptor for the tool name `t`. -/
def toolSampleOne : ToolSerialized :=
  { name := "t", description := "one", parameters := "s1" }

/-- A second, different sample descriptor for the tool name `t`. -/
def toolSampleTwo : ToolSerialized :=
  { name := "t", description := "two", parameters := "s2", enabled := some true }

/-- C9 witness: the upsert theorem evaluated on an empty registry and two
concrete registrations of the name `t`. -/
theorem registerOrUpdateTool_idempotent_upsert_witness :
    keyCount (registerOrUpdateTool "t" toolSampleTwo (registerOrUpdateTool "t" toolSampleOne []))
        "t" = 1
      ∧ recordLookup
          (registerOrUpdateTool "t" toolSampleTwo (registerOrUpdateTool "t" toolSampleOne []))
          "t" = some toolSampleTwo := by
  have h := registerOrUpdateTool_idempotent_upsert [] "t" toolSampleOne toolSampleTwo
    (by simp [keysOf])
  exact ⟨h.1, h.2.1⟩

/-- A binding store in which the name `t` has a bound handler (and nothing
else), with no descriptor registered anywhere. -/
def boundHandlerOnly : List (String × ToolHandlerBinding) := [("t", { hasHandler := true })]

/-- C10 counterexample: a tool-call-end for `t` with arguments present and
a bound handler, but no registered descriptor for `t`, does not invoke the
handler (no invoke effect is emitted) — the generic tool message is
appended instead — so the claim that a bound handler is always invoked
fails at this input. -/
theorem toolCallEnd_unregistered_handler_not_invoked :
    (onToolCallEndEvent [] boundHandlerOnly "t1" "m1" "t" (some [("k", "v")]) sampleHook).2 = []
      ∧ handlerBound boundHandlerOnly "t" = true
      ∧ (onToolCallEndEvent [] boundHandlerOnly "t1" "m1" "t" (some [("k", "v")])
            sampleHook).1.messages
          = sampleHook.messages ++ [createToolMessageFromAgUiEvent "m1" "t" (some [("k", "v")])] := by
  exact ⟨rfl, rfl, rfl⟩

/-- C10 amended: on tool-call-end with arguments present, exactly one
finalized message is appended in every case; if the descriptor is
registered and a handler is bound, the handler is invoked and a
ToolInvocation message with status complete is appended; if the descriptor
is registered, no handler but a render is bound, a custom-widget message is
appended; otherwise — including when a handler is bound but no descriptor
is registered — the generic ToolInvocation message with the raw arguments
is appended and nothing is invoked. -/
theorem toolCallEnd_dispatch (tools : List (String × ToolSerialized))
    (handlers : List (String × ToolHandlerBinding)) (chatId msgId name : String)
    (args : ToolCallArgs) (s : HookState) :
    (onToolCallEndEvent tools handlers chatId msgId name (some args) s).1.messages.length
        = s.messages.length + 1
      ∧ ((recordLookup tools name).isSome = true → handlerBound handlers name = true →
          (onToolCallEndEvent tools handlers chatId msgId name (some args) s).1.messages
              = s.messages ++ [createToolMessageFromAgUiEvent msgId name (some args)]
            ∧ (onToolCallEndEvent tools handlers chatId msgId name (some args) s).2
              = [Effect.invokeHandler name args])
      ∧ ((recordLookup tools name).isSome = true → handlerBound handlers name = false →
          renderBound handlers name = true →
          (onToolCallEndEvent tools handlers chatId msgId name (some args) s).1.messages
              = s.messages ++ [createCustomMessageWidget args name chatId]
            ∧ (onToolCallEndEvent tools handlers chatId msgId name (some args) s).2 = [])
      ∧ ((recordLookup tools name).isSome = false ∨
          (handlerBound handlers name = false ∧ renderBound handlers name = false) →
          (onToolCallEndEvent tools handlers chatId msgId name (some args) s).1.messages
              = s.messages ++ [createToolMessageFromAgUiEvent msgId name (some args)]
            ∧ (onToolCallEndEvent tools handlers chatId msgId name (some args) s).2 = []) := by
  by_cases h1 : (recordLookup tools name).isSome <;>
    by_cases h2 : handlerBound handlers name <;>
      by_cases h3 : renderBound handlers name <;>
        simp [onToolCallEndEvent, h1, h2, h3]

/-- C10 amended witness: the dispatch theorem evaluated with a registered
descriptor plus bound handler (handler invoked) and with a bound handler
but empty registry (exactly one message still appended). -/
theorem toolCallEnd_dispatch_witness :
    (onToolCallEndEvent [("t", toolSampleOne)] boundHandlerOnly "t1" "m1" "t"
          (some [("k", "v")]) sampleHook).2
        = [Effect.invokeHandler "t" [("k", "v")]]
      ∧ (onToolCallEndEvent [] boundHandlerOnly "t1" "m1" "t" (some [("k", "v")])
            sampleHook).1.messages.length
        = sampleHook.messages.length + 1 := by
  have hA := toolCallEnd_dispatch [("t", toolSampleOne)] boundHandlerOnly "t1" "m1" "t"
    [("k", "v")] sampleHook
  have hB := toolCallEnd_dispatch [] boundHandlerOnly "t1" "m1" "t" [("k", "v")] sampleHook
  exact ⟨(hA.2.1 rfl rfl).2, hB.1⟩

theorem applySubscriberEvent_activeHandle (f : FacadeState) (e : AgEvent) :
    (applySubscriberEvent f e).activeHandle = f.activeHandle
      ∨ (applySubscriberEvent f e).activeHandle = none := by
  cases e with
  | custom ce =>
    cases hce : onCustomEvent ce f.hook.progress with
    | ok p => exact Or.inl (by simp [applySubscriberEvent, hce])
    | error msg => exact Or.inl (by simp [applySubscriberEvent, hce])
  | runFinished => exact Or.inr rfl
  | textStart msgId => exact Or.inl rfl
  | textContent msgId buf => exact Or.inl rfl
  | textEnd => exact Or.inl rfl
  | toolCallStart name => exact Or.inl rfl
  | toolCallEnd msgId name args => exact Or.inl rfl
  | stateSnapshot snap => exact Or.inl rfl
  | runError raw msg => exact Or.inl rfl

theorem deliver_not_active (f : FacadeState) (h : Nat) (e : AgEvent) (a : Nat)
    (ha : f.activeHandle ≠ some a) : (deliver f h e).activeHandle ≠ some a := by
  unfold deliver
  by_cases hc : f.activeHandle = some h
  · rw [if_pos hc]
    rcases applySubscriberEvent_activeHandle f e with h1 | h1 <;> rw [h1]
    · exact ha
    · simp
  · rw [if_neg hc]
    exact ha

theorem deliver_stale (f : FacadeState) (h : Nat) (e : AgEvent)
    (ha : f.activeHandle ≠ some h) : deliver f h e = f := by
  unfold deliver
  rw [if_neg ha]

theorem deliverAll_filter_stale (a : Nat) (trace : List (Nat × AgEvent)) (f : FacadeState)
    (hf : f.activeHandle ≠ some a) :
    deliverAll f trace = deliverAll f (trace.filter (fun p => p.1 != a)) := by
  induction trace generalizing f with
  | nil => rfl
  | cons p t ih =>
    rcases p with ⟨h, e⟩
    by_cases hpa : h = a
    · subst hpa
      have hd : deliver f h e = f := deliver_stale f h e hf
      have hcond : ((h, e).1 != h) = false := by simp
      simp only [deliverAll, List.foldl_cons, List.filter_cons, hcond, Bool.false_eq_true,
        if_false, hd]
      exact ih f hf
    · have hcond : ((h, e).1 != a) = true := by simp [hpa]
      simp only [deliverAll, List.foldl_cons, List.filter_cons, hcond, if_true]
      exact ih (deliver f h e) (deliver_not_active f h e a hf)

/-- The scenario of spec P1: start run A with message `m1`, cancel it by
switching to `newChat`, and start run B there with message `m2`. -/
def c1Scenario (f0 : FacadeState) (newChat m1 m2 : String) : FacadeState :=
  (sendMessageStart m2 (switchChat newChat (sendMessageStart m1 f0).1)).1

/-- C1: run A's handle is `f0.nextHandle`, and after A is cancelled by the
chat switch and run B has started, delivering any trace of events is
indistinguishable from delivering only the events not tagged with A's
handle: every event for the cancelled handle is discarded unconditionally
and changes no Live State of any chat. -/
theorem stale_run_events_never_reach_live_state (f0 : FacadeState) (newChat m1 m2 : String)
    (trace : List (Nat × AgEvent)) :
    (sendMessageStart m1 f0).2 = f0.nextHandle
      ∧ deliverAll (c1Scenario f0 newChat m1 m2) trace
        = deliverAll (c1Scenario f0 newChat m1 m2)
            (trace.filter (fun p => p.1 != f0.nextHandle)) := by
  refine ⟨rfl, deliverAll_filter_stale f0.nextHandle trace _ ?_⟩
  simp only [c1Scenario, sendMessageStart, switchChat]
  intro hcontra
  simp only [Option.some.injEq] at hcontra
  omega

end AgUiChat
